import Mathlib

/-!
Shallow embedding of the image hosting service in src/app.js (Express app:
metadata store over a JSON file, blob directory, and CRUD handlers), together
with theorems checking the specification claims. Handlers are embedded as pure
functions over an explicit server state; the clock, the uuid generator and the
outcome of blob unlink calls are passed as parameters.
-/

namespace ImagesUploader

/-- JSON values as produced by JSON.parse and consumed by JSON.stringify. Every
number this program stores (byte sizes, counts) is a machine integer, so
numbers are modelled as Int. -/
inductive Json where
  | null : Json
  | bool (b : Bool) : Json
  | num (n : Int) : Json
  | str (s : String) : Json
  | arr (elems : List Json) : Json
  | obj (fields : List (String × Json)) : Json

/-- An image metadata record, with the exact fields built at upload time in
app.js lines 306 to 314. The field updatedTime is added only by the update
endpoint (line 1031) and is absent otherwise, hence an Option. -/
structure ImageRecord where
  id : String
  filename : String
  originalName : String
  mimetype : String
  size : Nat
  url : String
  uploadTime : String
  updatedTime : Option String := none
deriving DecidableEq

/-- JSON object that JSON.stringify writes for one record: keys in insertion
order, updatedTime present only when the record carries it. -/
def encodeRecord (r : ImageRecord) : Json :=
  Json.obj ([("id", Json.str r.id),
    ("filename", Json.str r.filename),
    ("originalName", Json.str r.originalName),
    ("mimetype", Json.str r.mimetype),
    ("size", Json.num (Int.ofNat r.size)),
    ("url", Json.str r.url),
    ("uploadTime", Json.str r.uploadTime)] ++
    (match r.updatedTime with
     | some t => [("updatedTime", Json.str t)]
     | none => []))

/-- JSON array that JSON.stringify writes for the whole record list. -/
def encodeImages (l : List ImageRecord) : Json :=
  Json.arr (l.map encodeRecord)

/-- Field lookup on a JSON object; none on any other JSON value. -/
def jlookup (k : String) : Json → Option Json
  | Json.obj fields => fields.lookup k
  | _ => none

/-- String valued field of a JSON object, if present. -/
def getStr (j : Json) (k : String) : Option String :=
  match jlookup k j with
  | some (Json.str s) => some s
  | _ => none

/-- Nonnegative integer valued field of a JSON object, if present. -/
def getNat (j : Json) (k : String) : Option Nat :=
  match jlookup k j with
  | some (Json.num n) => if 0 ≤ n then some n.toNat else none
  | _ => none

/-- Interpretation of a JSON value as an image record. The JS code has no
explicit decoder (JSON.parse hands the objects straight back to the handlers);
this definition names the representation relation needed to state that load
returns a list equal to the one saved. -/
def decodeRecord (j : Json) : Option ImageRecord :=
  match getStr j "id", getStr j "filename", getStr j "originalName",
      getStr j "mimetype", getNat j "size", getStr j "url", getStr j "uploadTime" with
  | some i, some fn, some oname, some mt, some sz, some u, some ut =>
      some { id := i, filename := fn, originalName := oname, mimetype := mt,
             size := sz, url := u, uploadTime := ut,
             updatedTime := getStr j "updatedTime" }
  | _, _, _, _, _, _, _ => none

/-- Interpretation of a list of JSON values as a record list (all or nothing). -/
def decodeRecords : List Json → Option (List ImageRecord)
  | [] => some []
  | j :: js =>
    match decodeRecord j, decodeRecords js with
    | some r, some rs => some (r :: rs)
    | _, _ => none

/-- Interpretation of a JSON value as a record list: it must be an array of
record objects. -/
def decodeImages : Json → Option (List ImageRecord)
  | Json.arr elems => decodeRecords elems
  | _ => none

/-- State of the metadata file images_meta.json as seen by readMeta: the file
may be missing, unreadable, hold bytes that are not valid JSON, or hold bytes
that parse as the JSON value j. The byte level round trip of JSON.stringify
and JSON.parse is the JSON library contract, so the embedding works at the
parsed value level. -/
inductive MetaFile where
  | absent : MetaFile
  | unreadable : MetaFile
  | malformed : MetaFile
  | json (j : Json) : MetaFile

/-- readMeta (app.js lines 25 to 32): fs.readFile then JSON.parse, with any
failure caught and turned into the empty array. -/
def readMeta : MetaFile → Json
  | MetaFile.json j => j
  | _ => Json.arr []

/-- writeMeta (app.js lines 34 to 36): JSON.stringify the data and overwrite
the file with it. -/
def writeMeta (data : Json) : MetaFile :=
  MetaFile.json data

theorem decodeRecord_encodeRecord (r : ImageRecord) :
    decodeRecord (encodeRecord r) = some r := by
  cases r with
  | mk i fn oname mt sz u ut upd =>
    cases upd <;>
      simp [decodeRecord, encodeRecord, getStr, getNat, jlookup, List.lookup]

theorem decodeRecords_encode (l : List ImageRecord) :
    decodeRecords (l.map encodeRecord) = some l := by
  induction l with
  | nil => rfl
  | cons r rs ih => simp [decodeRecords, decodeRecord_encodeRecord, ih]

/-- C3: for every record list L, save(L) followed by load() yields a list equal
to L: the stored JSON value is returned unchanged, and it represents exactly
the records of L, in order. -/
theorem save_load_round_trip (l : List ImageRecord) :
    readMeta (writeMeta (encodeImages l)) = encodeImages l ∧
    decodeImages (readMeta (writeMeta (encodeImages l))) = some l := by
  refine ⟨rfl, ?_⟩
  simp [readMeta, writeMeta, decodeImages, encodeImages, decodeRecords_encode]

/-- C8 counterexample: a metadata file whose bytes are the valid JSON text for
the string value hello. The claim says a malformed persisted representation
makes load() return the empty list, but readMeta returns the parsed value
verbatim, which is neither the empty array nor a well formed record list. -/
theorem readMeta_nonlist_counterexample :
    readMeta (MetaFile.json (Json.str "hello")) = Json.str "hello" ∧
    Json.str "hello" ≠ Json.arr [] ∧
    decodeImages (Json.str "hello") = none := by
  refine ⟨rfl, fun h => Json.noConfusion h, rfl⟩

/-- C8 (amended): load() never raises; when the file is absent, unreadable, or
not syntactically valid JSON it returns the empty array; any file that parses
as JSON is returned verbatim, whether or not it is a record list. -/
theorem readMeta_total_spec :
    readMeta MetaFile.absent = Json.arr [] ∧
    readMeta MetaFile.unreadable = Json.arr [] ∧
    readMeta MetaFile.malformed = Json.arr [] ∧
    ∀ j : Json, readMeta (MetaFile.json j) = j :=
  ⟨rfl, rfl, rfl, fun _ => rfl⟩

/-- Response an Express handler sends: HTTP status code and JSON body. -/
structure ApiResponse where
  status : Nat
  body : Json

/-- Process wide mutable state the handlers touch: the record list held in the
metadata file and the blob filenames present in the uploads directory. -/
structure ServerState where
  images : List ImageRecord
  blobs : List String

/-- Error bodies are sent as res.status(n).json with a single error field. -/
def errBody (msg : String) : Json :=
  Json.obj [("error", Json.str msg)]

/-- Response of a route handler whose body throws synchronously. app.js
registers no body parsing middleware (its only app.use calls are the CORS
headers, the static file server and the error middleware), so express leaves
req.body undefined on every request; a handler whose first statement
destructures req.body therefore throws a TypeError before any of its own
logic runs. Express catches the synchronous throw and fails the request with
status 500; the failure body is not produced by this code, so it is modelled
as null and only the status is meaningful. -/
def thrownResponse : ApiResponse :=
  ⟨500, Json.null⟩

/-- Effect of one fs.unlink call on the uploads directory: on success the blob
is gone; on failure (already missing, permissions, ...) the directory is
unchanged and the error is only logged, exactly as every unlink in the source
swallows its rejection. The parameter unlinkOk gives the outcome per filename. -/
def unlinkBlob (unlinkOk : String → Bool) (blobs : List String) (fn : String) :
    List String :=
  if unlinkOk fn then blobs.erase fn else blobs

/-- DELETE /api/images/:id handler (app.js lines 897 to 928): findIndex on the
id, 404 without touching anything when absent; otherwise a best effort unlink
of the blob, splice of the first matching record, and writeMeta of the rest.
find? together with eraseP is the findIndex plus splice(index, 1) of the
source. -/
def deleteOneReq (i : String) (unlinkOk : String → Bool) (s : ServerState) :
    ApiResponse × ServerState :=
  match s.images.find? (fun img => img.id == i) with
  | none => (⟨404, errBody "圖片不存在"⟩, s)
  | some image =>
    (⟨200, Json.obj [("success", Json.bool true), ("message", Json.str "圖片已刪除")]⟩,
     ⟨s.images.eraseP (fun img => img.id == i),
      unlinkBlob unlinkOk s.blobs image.filename⟩)

/-- Outcome of a handler that may call writeMeta: status, body, and the list
handed to writeMeta when the handler reached it (none when it returned early
without writing). -/
structure Outcome where
  status : Nat
  body : Json
  write : Option (List ImageRecord)

/-- PUT /api/images/:id handler (app.js lines 1014 to 1044) as it runs in the
shipped program: its first statement (line 1016) destructures req.body, which
is undefined because no body parsing middleware is registered, so every PUT
throws before the originalName check and before the lookup; the request fails
with status 500 and writeMeta is never reached. The 400, 404 and update logic
of lines 1018 to 1044 is dead code on every path, whatever name the client
sent. -/
def updateImageReq (_i : String) (_now : String)
    (_images : List ImageRecord) : Outcome :=
  ⟨thrownResponse.status, thrownResponse.body, none⟩

/-- Sample records for concrete counterexamples and witnesses. -/
def sampleRec : ImageRecord :=
  { id := "a", filename := "a.png", originalName := "cat.png",
    mimetype := "image/png", size := 2048,
    url := "http://localhost:3000/images/a.png",
    uploadTime := "2024-01-01T00:00:00.000Z" }

/-- C4 counterexample: a stored list holding two records with the same id
(possible for an externally produced metadata file, and exactly the situation
claim C10 describes). DeleteOne succeeds yet a record with the deleted id is
still in the persisted list, against the claim that the record is absent from
every subsequent result. -/
theorem deleteOne_duplicate_counterexample :
    sampleRec.id = "a" ∧
    (deleteOneReq "a" (fun _ => true) ⟨[sampleRec, sampleRec], []⟩).1.status = 200 ∧
    (deleteOneReq "a" (fun _ => true) ⟨[sampleRec, sampleRec], []⟩).2.images
      = [sampleRec] :=
  ⟨rfl, rfl, rfl⟩

/-- C4 (amended): on a stored list whose ids are pairwise distinct (the store
invariant of the data model), DeleteOne(id) with a matching record succeeds
and the persisted list has no record with that id, with response and persisted
list independent of the blob unlink outcome; with no matching record it
returns 404 and leaves the state untouched. -/
theorem deleteOne_spec (i : String) (u : String → Bool) (s : ServerState)
    (hnd : (s.images.map ImageRecord.id).Nodup) :
    ((∃ r ∈ s.images, r.id = i) →
      (deleteOneReq i u s).1.status = 200 ∧
      (∀ r ∈ (deleteOneReq i u s).2.images, r.id ≠ i) ∧
      (∀ u' : String → Bool,
        (deleteOneReq i u' s).1 = (deleteOneReq i u s).1 ∧
        (deleteOneReq i u' s).2.images = (deleteOneReq i u s).2.images)) ∧
    ((∀ r ∈ s.images, r.id ≠ i) →
      deleteOneReq i u s = (⟨404, errBody "圖片不存在"⟩, s)) := by
  constructor
  · rintro ⟨r, hr, hrid⟩
    have hsome : (s.images.find? (fun img => img.id == i)).isSome := by
      rw [List.find?_isSome]
      exact ⟨r, hr, by simp [hrid]⟩
    obtain ⟨a, ha⟩ := Option.isSome_iff_exists.mp hsome
    obtain ⟨hpa, as, bs, hsplit, hforall⟩ := List.find?_eq_some.mp ha
    have haid : a.id = i := by simpa using hpa
    have hasf : ∀ x ∈ as, ¬ (x.id == i) = true := by
      intro x hx
      simpa using hforall x hx
    have herase : s.images.eraseP (fun img => img.id == i) = as ++ bs := by
      rw [hsplit, List.eraseP_append_right _ hasf,
        List.eraseP_cons_of_pos (p := fun img : ImageRecord => img.id == i) hpa]
    have hmem : ∀ r' ∈ as ++ bs, r'.id ≠ i := by
      intro r' hr'
      rcases List.mem_append.mp hr' with h1 | h2
      · intro hcontra
        exact hasf r' h1 (by simp [hcontra])
      · intro hcontra
        have hnd2 : (ImageRecord.id a :: bs.map ImageRecord.id).Nodup := by
          have := hnd
          rw [hsplit, List.map_append, List.map_cons] at this
          exact this.of_append_right
        have hnotin : ImageRecord.id a ∉ bs.map ImageRecord.id :=
          (List.nodup_cons.mp hnd2).1
        exact hnotin (by
          rw [haid, ← hcontra]
          exact List.mem_map_of_mem ImageRecord.id h2)
    refine ⟨?_, ?_, ?_⟩
    · simp [deleteOneReq, ha]
    · intro r' hr'
      apply hmem
      rw [← herase]
      simpa [deleteOneReq, ha] using hr'
    · intro u'
      constructor <;> simp [deleteOneReq, ha]
  · intro hnone
    have : s.images.find? (fun img => img.id == i) = none := by
      rw [List.find?_eq_none]
      intro x hx
      simp [hnone x hx]
    simp [deleteOneReq, this]

/-- C4 witness: the amended theorem applied to the one record store, with every
hypothesis discharged on concrete values. -/
theorem deleteOne_spec_witness :
    (([sampleRec].map ImageRecord.id).Nodup ∧ ∃ r ∈ [sampleRec], r.id = "a") ∧
    (deleteOneReq "a" (fun _ => true) ⟨[sampleRec], []⟩).1.status = 200 ∧
    (∀ r ∈ (deleteOneReq "a" (fun _ => true) ⟨[sampleRec], []⟩).2.images,
      r.id ≠ "a") :=
  ⟨⟨by decide, sampleRec, by decide, rfl⟩,
    ((deleteOne_spec "a" (fun _ => true) ⟨[sampleRec], []⟩ (by decide)).1
      ⟨sampleRec, by decide, rfl⟩).1,
    ((deleteOne_spec "a" (fun _ => true) ⟨[sampleRec], []⟩ (by decide)).1
      ⟨sampleRec, by decide, rfl⟩).2.1⟩

/-- C5 counterexample: a store with a record whose id matches the PUT target.
The claim predicts a 400 for a missing or empty name and a successful update
otherwise, but the PUT handler throws on the undefined req.body before
looking at anything: the response status is 500, not 400, and nothing is
written even though a matching record exists. -/
theorem updateName_counterexample :
    sampleRec.id = "a" ∧
    (updateImageReq "a" "t" [sampleRec]).status = 500 ∧
    (500 : Nat) ≠ 400 ∧
    (updateImageReq "a" "t" [sampleRec]).write = none :=
  ⟨rfl, rfl, by decide, rfl⟩

/-- C5 (amended): app.js registers no body parsing middleware, so req.body is
undefined and every PUT /api/images/:id throws at the destructure of
originalName, before any validation and before any lookup; the request fails
with status 500 uniformly in the stored list, the id, and whatever name the
client sent, and the stored list is never written. The 400, 404 and update
logic of lines 1018 to 1044 is dead code. -/
theorem updateName_always_500 (i : String) (now : String)
    (images : List ImageRecord) :
    (updateImageReq i now images).status = 500 ∧
    (updateImageReq i now images).write = none ∧
    updateImageReq i now images = updateImageReq i now [] :=
  ⟨rfl, rfl, rfl⟩

/-- C10 counterexample: a store holding two records with the same id. The
claim predicts UpdateName rewrites the first copy, but every PUT throws on
the undefined req.body and fails with 500 without writing, so not even the
first matching record is ever updated. -/
theorem update_first_match_counterexample :
    sampleRec.id = "a" ∧
    (updateImageReq "a" "t" [sampleRec, sampleRec]).status = 500 ∧
    (updateImageReq "a" "t" [sampleRec, sampleRec]).write = none :=
  ⟨rfl, rfl, rfl⟩

/-- C10 (amended): on a list whose first record matching the id is r, with
possible later duplicates of the same id inside post, DeleteOne removes
exactly that first occurrence and leaves every record after it, duplicates
included, untouched; UpdateName however updates nothing at all, first match
or otherwise: the PUT handler throws on the undefined req.body (no body
parser is registered) and fails with 500 without writing. -/
theorem first_match_only (i : String) (pre post : List ImageRecord)
    (r : ImageRecord) (bs : List String)
    (hpre : ∀ x ∈ pre, x.id ≠ i) (hr : r.id = i)
    (u : String → Bool) (now : String) :
    (deleteOneReq i u ⟨pre ++ r :: post, bs⟩).2.images = pre ++ post ∧
    (deleteOneReq i u ⟨pre ++ r :: post, bs⟩).1.status = 200 ∧
    (updateImageReq i now (pre ++ r :: post)).status = 500 ∧
    (updateImageReq i now (pre ++ r :: post)).write = none := by
  have hpr : (fun img => img.id == i) r = true := by simp [hr]
  have hfind : (pre ++ r :: post).find? (fun img => img.id == i) = some r := by
    rw [List.find?_append]
    have h1 : pre.find? (fun img => img.id == i) = none := by
      rw [List.find?_eq_none]
      intro x hx
      simp [hpre x hx]
    rw [h1, Option.none_or,
      List.find?_cons_of_pos (p := fun img => img.id == i) post hpr]
  refine ⟨?_, ?_, rfl, rfl⟩
  · simp only [deleteOneReq, hfind]
    rw [List.eraseP_append_right _ (by intro b hb; simp [hpre b hb]),
      List.eraseP_cons_of_pos (p := fun img : ImageRecord => img.id == i) hpr]
  · simp [deleteOneReq, hfind]

/-- C10 witness: a store holding two records with the same id; the delete
removes only the first copy and the update touches nothing. -/
theorem first_match_only_witness :
    ((∀ x ∈ ([] : List ImageRecord), x.id ≠ "a") ∧ sampleRec.id = "a") ∧
    (deleteOneReq "a" (fun _ => true)
        ⟨[] ++ sampleRec :: [sampleRec], []⟩).2.images = [] ++ [sampleRec] ∧
    (updateImageReq "a" "t" ([] ++ sampleRec :: [sampleRec])).write = none :=
  ⟨⟨by simp, rfl⟩,
    (first_match_only "a" [] [sampleRec] sampleRec [] (by simp) rfl
      (fun _ => true) "t").1,
    (first_match_only "a" [] [sampleRec] sampleRec [] (by simp) rfl
      (fun _ => true) "t").2.2.2⟩

/-- GET /api/images handler (app.js lines 886 to 894): the parsed metadata
list is sent back verbatim. -/
def listAllReq (images : List ImageRecord) : ApiResponse :=
  ⟨200, encodeImages images⟩

/-- DELETE /api/images/batch handler (app.js lines 931 to 978) as it runs in
the shipped program: its first statement (line 932) destructures req.body,
which is undefined because no body parsing middleware is registered, so every
invocation throws before the ids checks run; the request fails with status
500, and neither the metadata list nor the blobs are touched. The
400/404/deletedCount logic of lines 934 to 978 is dead code on every path. -/
def deleteBatchReq (_unlinkOk : String → Bool) (s : ServerState) :
    ApiResponse × ServerState :=
  (thrownResponse, s)

/-- DELETE /api/images/clear-all handler (app.js lines 981 to 1011): best
effort unlink of every blob, then writeMeta of the empty list. The success
body has only success and message fields; the prior count appears inside the
message text and there is no deletedCount field. -/
def clearAllReq (unlinkOk : String → Bool) (s : ServerState) :
    ApiResponse × ServerState :=
  (⟨200, Json.obj [("success", Json.bool true),
      ("message", Json.str ("已刪除 " ++ toString s.images.length ++ " 張圖片"))]⟩,
   ⟨[], s.images.foldl (fun bs img => unlinkBlob unlinkOk bs img.filename) s.blobs⟩)

/-- One segment of an Express route pattern: a literal, or a named parameter
such as :id. -/
inductive Seg where
  | lit (s : String) : Seg
  | param : Seg

/-- Express segment matching: a literal matches itself, a parameter matches
any nonempty segment. -/
def segMatches : Seg → String → Bool
  | Seg.lit s, t => s == t
  | Seg.param, t => !(t == "")

/-- A route pattern matches a path when the segments align one to one. -/
def routeMatches (pat : List Seg) (path : List String) : Bool :=
  pat.length == path.length &&
    (pat.zip path).all (fun q => segMatches q.1 q.2)

/-- Pattern of the DELETE /api/images/:id route, registered at app.js line 897. -/
def idRoutePat : List Seg := [Seg.lit "api", Seg.lit "images", Seg.param]

/-- Pattern of the DELETE /api/images/batch route, registered at line 931. -/
def batchRoutePat : List Seg :=
  [Seg.lit "api", Seg.lit "images", Seg.lit "batch"]

/-- Pattern of the DELETE /api/images/clear-all route, registered at line 981. -/
def clearAllRoutePat : List Seg :=
  [Seg.lit "api", Seg.lit "images", Seg.lit "clear-all"]

/-- Dispatch of an HTTP DELETE request: Express tries the routes in the order
they are registered in app.js, and the :id parameter of the first route binds
the third path segment. The result none means no DELETE route matches. -/
def handleDelete (path : List String) (unlinkOk : String → Bool)
    (s : ServerState) : Option (ApiResponse × ServerState) :=
  if routeMatches idRoutePat path then
    some (deleteOneReq (path.getD 2 "") unlinkOk s)
  else if routeMatches batchRoutePat path then
    some (deleteBatchReq unlinkOk s)
  else if routeMatches clearAllRoutePat path then
    some (clearAllReq unlinkOk s)
  else none

theorem deleteOne_notfound (i : String) (u : String → Bool) (s : ServerState)
    (h : ∀ r ∈ s.images, r.id ≠ i) :
    deleteOneReq i u s = (⟨404, errBody "圖片不存在"⟩, s) := by
  have hnone : s.images.find? (fun img => img.id == i) = none := by
    rw [List.find?_eq_none]
    intro x hx
    simp [h x hx]
  simp [deleteOneReq, hnone]

/-- C1 counterexample: one stored record with id a. The claim predicts, for
ids = [a], success with deletedCount 1 and an empty remaining list, but the
HTTP DELETE to /api/images/batch is dispatched to the earlier registered :id
route, which answers 404 and leaves the store untouched, whatever ids array
the client put in the request body (the body is never parsed). -/
theorem deleteBatch_http_counterexample :
    sampleRec.id = "a" ∧
    handleDelete ["api", "images", "batch"] (fun _ => true) ⟨[sampleRec], []⟩ =
      some (⟨404, errBody "圖片不存在"⟩, ⟨[sampleRec], []⟩) :=
  ⟨rfl, rfl⟩

/-- C1 (amended): an HTTP DELETE to /api/images/batch runs the single delete
handler with id equal to the literal string batch, because the :id route is
registered first; it answers 404 with the store untouched unless a record
carries that literal id. The claimed 400/404/deletedCount contract is
implemented on no path: the ids array in the request body is never parsed (no
body parsing middleware is registered), and even invoked directly the batch
handler throws on the undefined req.body before reading ids, failing with 500
and writing nothing. -/
theorem deleteBatch_request_spec (u : String → Bool) (s : ServerState) :
    handleDelete ["api", "images", "batch"] u s =
      some (deleteOneReq "batch" u s) ∧
    ((∀ r ∈ s.images, r.id ≠ "batch") →
      handleDelete ["api", "images", "batch"] u s =
        some (⟨404, errBody "圖片不存在"⟩, s)) ∧
    (deleteBatchReq u s).1.status = 500 ∧
    (deleteBatchReq u s).2 = s := by
  refine ⟨rfl, ?_, rfl, rfl⟩
  intro h
  show some (deleteOneReq "batch" u s) = some (⟨404, errBody "圖片不存在"⟩, s)
  rw [deleteOne_notfound "batch" u s h]

/-- C1 witness: the amended theorem applied to a one record store carrying no
record with id batch, the hypothesis discharged at the concrete values. -/
theorem deleteBatch_request_spec_witness :
    (∀ r ∈ ([sampleRec] : List ImageRecord), r.id ≠ "batch") ∧
    handleDelete ["api", "images", "batch"] (fun _ => true) ⟨[sampleRec], []⟩ =
      some (⟨404, errBody "圖片不存在"⟩, ⟨[sampleRec], []⟩) :=
  ⟨by decide,
    (deleteBatch_request_spec (fun _ => true) ⟨[sampleRec], []⟩).2.1 (by decide)⟩

/-- C2 counterexample: with one stored record, the HTTP DELETE to
/api/images/clear-all is dispatched to the earlier registered :id route and
answers 404 leaving the store untouched, against the claimed emptied list;
moreover even the dedicated clear-all handler returns no deletedCount field in
its success body. -/
theorem clearAll_http_counterexample :
    handleDelete ["api", "images", "clear-all"] (fun _ => true)
        ⟨[sampleRec], []⟩ =
      some (⟨404, errBody "圖片不存在"⟩, ⟨[sampleRec], []⟩) ∧
    jlookup "deletedCount"
      (clearAllReq (fun _ => true) ⟨[sampleRec], []⟩).1.body = none :=
  ⟨rfl, rfl⟩

/-- C2 (amended): the clear-all handler persists the empty list, so ListAll
over the persisted state returns the empty array; its success body reports the
prior record count inside the message text and carries no deletedCount field;
and the route is shadowed by /api/images/:id, so the HTTP path runs the single
delete handler with id equal to the literal string clear-all. -/
theorem clearAll_handler_spec (u : String → Bool) (s : ServerState) :
    (clearAllReq u s).2.images = [] ∧
    listAllReq (clearAllReq u s).2.images = ⟨200, Json.arr []⟩ ∧
    (clearAllReq u s).1.status = 200 ∧
    (clearAllReq u s).1.body =
      Json.obj [("success", Json.bool true),
        ("message", Json.str ("已刪除 " ++ toString s.images.length ++ " 張圖片"))] ∧
    jlookup "deletedCount" (clearAllReq u s).1.body = none ∧
    handleDelete ["api", "images", "clear-all"] u s =
      some (deleteOneReq "clear-all" u s) :=
  ⟨rfl, rfl, rfl, rfl, rfl, rfl⟩

theorem batch_match_implies_id (path : List String) :
    routeMatches batchRoutePat path = true → routeMatches idRoutePat path = true := by
  match path with
  | [] => intro h; exact absurd h (by decide)
  | [a] => intro h; simp [routeMatches, batchRoutePat] at h
  | [a, b] => intro h; simp [routeMatches, batchRoutePat] at h
  | a :: b :: c :: d :: rest => intro h; simp [routeMatches, batchRoutePat] at h
  | [a, b, c] =>
    intro h
    simp [routeMatches, batchRoutePat, idRoutePat, segMatches] at h ⊢
    obtain ⟨h1, h2, h3⟩ := h
    subst h3
    exact ⟨h1, h2, by decide⟩

theorem clearall_match_implies_id (path : List String) :
    routeMatches clearAllRoutePat path = true →
      routeMatches idRoutePat path = true := by
  match path with
  | [] => intro h; exact absurd h (by decide)
  | [a] => intro h; simp [routeMatches, clearAllRoutePat] at h
  | [a, b] => intro h; simp [routeMatches, clearAllRoutePat] at h
  | a :: b :: c :: d :: rest => intro h; simp [routeMatches, clearAllRoutePat] at h
  | [a, b, c] =>
    intro h
    simp [routeMatches, clearAllRoutePat, idRoutePat, segMatches] at h ⊢
    obtain ⟨h1, h2, h3⟩ := h
    subst h3
    exact ⟨h1, h2, by decide⟩

/-- C9: both special DELETE paths are captured by the earlier registered :id
route with the literal third segment bound as the id, so unless a record
carries that literal id the answer is 404 with the store untouched; and no
DELETE dispatch ever reaches the dedicated batch or clear-all handlers: every
DELETE request is either unrouted or handled by the single delete handler. -/
theorem delete_route_shadowing (u : String → Bool) (s : ServerState) :
    handleDelete ["api", "images", "batch"] u s =
      some (deleteOneReq "batch" u s) ∧
    handleDelete ["api", "images", "clear-all"] u s =
      some (deleteOneReq "clear-all" u s) ∧
    ((∀ r ∈ s.images, r.id ≠ "batch") →
      deleteOneReq "batch" u s = (⟨404, errBody "圖片不存在"⟩, s)) ∧
    ((∀ r ∈ s.images, r.id ≠ "clear-all") →
      deleteOneReq "clear-all" u s = (⟨404, errBody "圖片不存在"⟩, s)) ∧
    (∀ path : List String, handleDelete path u s = none ∨
      ∃ i, handleDelete path u s = some (deleteOneReq i u s)) := by
  refine ⟨rfl, rfl, deleteOne_notfound _ u s, deleteOne_notfound _ u s, ?_⟩
  intro path
  by_cases hid : routeMatches idRoutePat path = true
  · right
    exact ⟨path.getD 2 "", by simp [handleDelete, hid]⟩
  · left
    have hb : ¬ routeMatches batchRoutePat path = true := fun hcon =>
      hid (batch_match_implies_id path hcon)
    have hc : ¬ routeMatches clearAllRoutePat path = true := fun hcon =>
      hid (clearall_match_implies_id path hcon)
    simp [handleDelete, hid, hb, hc]

/-- C9 witness: the theorem applied to a concrete store with no record whose
id is batch or clear-all, each hypothesis discharged there. -/
theorem delete_route_shadowing_witness :
    handleDelete ["api", "images", "batch"] (fun _ => true) ⟨[sampleRec], []⟩ =
      some (deleteOneReq "batch" (fun _ => true) ⟨[sampleRec], []⟩) ∧
    (∀ r ∈ ([sampleRec] : List ImageRecord), r.id ≠ "batch") ∧
    deleteOneReq "batch" (fun _ => true) ⟨[sampleRec], []⟩ =
      (⟨404, errBody "圖片不存在"⟩, ⟨[sampleRec], []⟩) :=
  ⟨(delete_route_shadowing (fun _ => true) ⟨[sampleRec], []⟩).1,
    by decide,
    (delete_route_shadowing (fun _ => true) ⟨[sampleRec], []⟩).2.2.1
      (by decide)⟩

/-- Incoming multipart file as busboy hands it to multer: client supplied
filename, declared MIME type, and byte size of the streamed content. -/
structure IncomingFile where
  originalname : String
  mimetype : String
  size : Nat
deriving DecidableEq

/-- Entry of req.files after multer stored the file: the generated disk
filename (uuid plus original extension, produced by the diskStorage filename
callback) together with the file metadata. -/
structure UploadedFile where
  filename : String
  originalname : String
  mimetype : String
  size : Nat
deriving DecidableEq

/-- MIME allow-list of the fileFilter (app.js lines 71 to 77). -/
def allowedTypes : List String :=
  ["image/jpeg", "image/jpg", "image/png", "image/gif", "image/webp"]

/-- fileFilter (app.js lines 70 to 83): accept exactly the allow-listed MIME
types; anything else aborts the upload with a plain Error. -/
def fileFilter (f : IncomingFile) : Bool :=
  allowedTypes.contains f.mimetype

/-- Per file size limit handed to multer (app.js line 88). -/
def fileSizeLimit : Nat := 10 * 1024 * 1024

/-- Errors with which multer can abort this upload pipeline: exceeding the
fileSize limit raises MulterError LIMIT_FILE_SIZE, while the fileFilter
passes back a plain Error carrying its message. -/
inductive UploadAbort where
  | limitFileSize : UploadAbort
  | fileFilterError (msg : String) : UploadAbort
deriving DecidableEq

/-- Multer processing of the incoming files in order: for each file the
fileFilter runs before anything is stored, then the content is streamed to
disk under storedName k (the uuid supply of the diskStorage callback),
aborting with LIMIT_FILE_SIZE when the content exceeds the limit. On any
abort multer removes the files it had already stored, so an aborted request
leaves no new blob behind. -/
def storeFiles (storedName : Nat → String) :
    Nat → List IncomingFile → Except UploadAbort (List UploadedFile)
  | _, [] => Except.ok []
  | k, f :: fs =>
    if fileFilter f then
      if f.size ≤ fileSizeLimit then
        match storeFiles storedName (k + 1) fs with
        | Except.ok rest =>
            Except.ok ({ filename := storedName k, originalname := f.originalname,
                         mimetype := f.mimetype, size := f.size } :: rest)
        | Except.error e => Except.error e
      else Except.error UploadAbort.limitFileSize
    else Except.error (UploadAbort.fileFilterError "只允許上傳圖片檔案")

/-- Error handling middleware (app.js lines 334 to 343): only a MulterError
with code LIMIT_FILE_SIZE is answered with 400; every other error, including
the plain Error thrown by the fileFilter, falls through to a 500 carrying the
error message. -/
def errorMiddleware : UploadAbort → ApiResponse
  | UploadAbort.limitFileSize => ⟨400, errBody "檔案太大，請上傳小於 10MB 的圖片"⟩
  | UploadAbort.fileFilterError msg => ⟨500, errBody msg⟩

/-- Record built for one uploaded file (app.js lines 306 to 314). -/
def mkImageRecord (newId : String) (f : UploadedFile) (now baseUrl : String) :
    ImageRecord :=
  { id := newId, filename := f.filename, originalName := f.originalname,
    mimetype := f.mimetype, size := f.size,
    url := baseUrl ++ "/images/" ++ f.filename, uploadTime := now }

/-- POST /upload route handler body (app.js lines 294 to 331), entered after
multer succeeded: 400 when no file arrived; otherwise one fresh record per
stored file, with ids drawn in order from the uuid supply newIds, is appended
to the loaded list, the whole batch is persisted with a single writeMeta, and
the new records are echoed in the response. -/
def uploadHandler (files : List UploadedFile) (newIds : List String)
    (now baseUrl : String) (images : List ImageRecord) : Outcome :=
  if files.isEmpty then ⟨400, errBody "沒有檔案被上傳", none⟩
  else
    let newImages := (files.zip newIds).map
      (fun p => mkImageRecord p.2 p.1 now baseUrl)
    ⟨200, Json.obj [("success", Json.bool true),
        ("message", Json.str ("成功上傳 " ++ toString files.length ++ " 個檔案")),
        ("images", Json.arr (newImages.map encodeRecord))],
     some (images ++ newImages)⟩

/-- Whole POST /upload request: multer stores the files or aborts through the
error middleware (removing whatever it had stored), then the route handler
appends the records and persists them. -/
def uploadRequest (storedName : Nat → String) (newIds : List String)
    (now baseUrl : String) (files : List IncomingFile) (s : ServerState) :
    ApiResponse × ServerState :=
  match storeFiles storedName 0 files with
  | Except.error e => (errorMiddleware e, s)
  | Except.ok ufs =>
    let out := uploadHandler ufs newIds now baseUrl s.images
    (⟨out.status, out.body⟩,
     ⟨(out.write).getD s.images, s.blobs ++ ufs.map (fun f => f.filename)⟩)

/-- Incoming plain text file used by the C6 counterexample. -/
def plainTextFile : IncomingFile :=
  { originalname := "note.txt", mimetype := "text/plain", size := 5 }

/-- C6 counterexample: uploading a single text/plain file is rejected with
status 500, not the claimed 400, because the fileFilter error is a plain
Error that the error middleware does not map to 400. -/
theorem upload_disallowed_mime_counterexample :
    (uploadRequest (fun _ => "f.txt") ["id0"] "t" "http://h" [plainTextFile]
        ⟨[], []⟩).1.status = 500 ∧
    (500 : Nat) ≠ 400 :=
  ⟨rfl, by decide⟩

/-- C6 (amended): an upload holding a file with a MIME type outside the
allow-list, with every file within the size limit, is rejected as a whole:
the fileFilter aborts with its plain Error, the error middleware answers 500
(not 400) with that message, no metadata record is created, no blob remains
written, and the server state is unchanged. -/
theorem upload_disallowed_mime_spec (storedName : Nat → String)
    (newIds : List String) (now baseUrl : String) (files : List IncomingFile)
    (s : ServerState)
    (hbad : ∃ f ∈ files, f.mimetype ∉ allowedTypes)
    (hsize : ∀ f ∈ files, f.size ≤ fileSizeLimit) :
    uploadRequest storedName newIds now baseUrl files s =
      (⟨500, errBody "只允許上傳圖片檔案"⟩, s) := by
  have key : ∀ (k : Nat) (fl : List IncomingFile),
      (∃ f ∈ fl, f.mimetype ∉ allowedTypes) →
      (∀ f ∈ fl, f.size ≤ fileSizeLimit) →
      storeFiles storedName k fl =
        Except.error (UploadAbort.fileFilterError "只允許上傳圖片檔案") := by
    intro k fl
    induction fl generalizing k with
    | nil =>
      rintro ⟨f, hf, -⟩ -
      exact absurd hf (List.not_mem_nil f)
    | cons g gs ih =>
      rintro ⟨f, hf, hfm⟩ hsz
      by_cases hg : fileFilter g
      · have hsg : g.size ≤ fileSizeLimit := hsz g (by simp)
        have hff : ∃ f ∈ gs, f.mimetype ∉ allowedTypes := by
          rcases List.mem_cons.mp hf with rfl | hmem
          · exact absurd (by simpa [fileFilter] using hg) hfm
          · exact ⟨f, hmem, hfm⟩
        have hrec := ih (k + 1) hff (fun x hx => hsz x (by simp [hx]))
        simp [storeFiles, hg, hsg, hrec]
      · simp [storeFiles, hg]
  simp [uploadRequest, key 0 files hbad hsize, errorMiddleware]

/-- C6 witness: the amended theorem applied to the single text/plain file,
each hypothesis discharged at the concrete values. -/
theorem upload_disallowed_mime_spec_witness :
    ((∃ f ∈ [plainTextFile], f.mimetype ∉ allowedTypes) ∧
      ∀ f ∈ [plainTextFile], f.size ≤ fileSizeLimit) ∧
    uploadRequest (fun _ => "f.txt") ["id0"] "t" "http://h" [plainTextFile]
        ⟨[], []⟩ = (⟨500, errBody "只允許上傳圖片檔案"⟩, ⟨[], []⟩) :=
  ⟨⟨⟨plainTextFile, by decide, by decide⟩, by decide⟩,
    upload_disallowed_mime_spec (fun _ => "f.txt") ["id0"] "t" "http://h"
      [plainTextFile] ⟨[], []⟩ ⟨plainTextFile, by decide, by decide⟩ (by decide)⟩

/-- C7: a successful upload appends exactly one record per uploaded file to
the loaded list and persists the whole batch with one save, leaving every
existing record untouched; the k-th new record carries the k-th generated id,
the user supplied original name, the byte size, the recorded MIME type, the
upload time, and a url composed of the base URL and the stored filename, so
that the url ends in the stored filename. -/
theorem upload_appends_records (files : List UploadedFile) (newIds : List String)
    (now baseUrl : String) (images : List ImageRecord)
    (hne : files ≠ []) (hlen : newIds.length = files.length) :
    ∃ newImages : List ImageRecord,
      (uploadHandler files newIds now baseUrl images).status = 200 ∧
      (uploadHandler files newIds now baseUrl images).write =
        some (images ++ newImages) ∧
      newImages.length = files.length ∧
      (∀ k, k < files.length →
        ∃ f i r, files[k]? = some f ∧ newIds[k]? = some i ∧
          newImages[k]? = some r ∧
          r.id = i ∧ r.originalName = f.originalname ∧ r.size = f.size ∧
          r.mimetype = f.mimetype ∧ r.uploadTime = now ∧
          r.filename = f.filename ∧
          r.url = baseUrl ++ "/images/" ++ f.filename ∧
          f.filename.data <:+ r.url.data) := by
  have hemp : files.isEmpty = false := by
    rw [Bool.eq_false_iff]
    intro hcon
    exact hne (List.isEmpty_iff.mp hcon)
  refine ⟨(files.zip newIds).map (fun p => mkImageRecord p.2 p.1 now baseUrl),
    ?_, ?_, ?_, ?_⟩
  · simp [uploadHandler, hemp]
  · simp [uploadHandler, hemp]
  · rw [List.length_map, List.length_zip, hlen, Nat.min_self]
  · intro k hk
    have hk2 : k < newIds.length := by rw [hlen]; exact hk
    refine ⟨files[k], newIds[k],
      mkImageRecord newIds[k] files[k] now baseUrl,
      List.getElem?_eq_getElem hk, List.getElem?_eq_getElem hk2, ?_,
      rfl, rfl, rfl, rfl, rfl, rfl, rfl, ?_⟩
    · rw [List.getElem?_map]
      have hz : (files.zip newIds)[k]? = some (files[k], newIds[k]) :=
        List.getElem?_zip_eq_some.mpr
          ⟨List.getElem?_eq_getElem hk, List.getElem?_eq_getElem hk2⟩
      rw [hz]
      rfl
    · show files[k].filename.data <:+
        (baseUrl ++ "/images/" ++ files[k].filename).data
      rw [String.data_append]
      exact List.suffix_append _ _

/-- C7 witness: the theorem applied to a single stored file and a single
fresh id, hypotheses discharged at the concrete values. -/
theorem upload_appends_records_witness :
    (([⟨"u1.png", "cat.png", "image/png", 2048⟩] : List UploadedFile) ≠ [] ∧
      (["id0"] : List String).length =
        [(⟨"u1.png", "cat.png", "image/png", 2048⟩ : UploadedFile)].length) ∧
    ∃ newImages : List ImageRecord,
      (uploadHandler [⟨"u1.png", "cat.png", "image/png", 2048⟩] ["id0"]
        "t" "http://h" []).status = 200 ∧
      (uploadHandler [⟨"u1.png", "cat.png", "image/png", 2048⟩] ["id0"]
        "t" "http://h" []).write = some ([] ++ newImages) ∧
      newImages.length =
        [(⟨"u1.png", "cat.png", "image/png", 2048⟩ : UploadedFile)].length ∧
      (∀ k, k < [(⟨"u1.png", "cat.png", "image/png", 2048⟩ : UploadedFile)].length →
        ∃ f i r,
          [(⟨"u1.png", "cat.png", "image/png", 2048⟩ : UploadedFile)][k]? = some f ∧
          (["id0"] : List String)[k]? = some i ∧
          newImages[k]? = some r ∧
          r.id = i ∧ r.originalName = f.originalname ∧ r.size = f.size ∧
          r.mimetype = f.mimetype ∧ r.uploadTime = "t" ∧
          r.filename = f.filename ∧
          r.url = "http://h" ++ "/images/" ++ f.filename ∧
          f.filename.data <:+ r.url.data) :=
  ⟨⟨by decide, rfl⟩,
    upload_appends_records [⟨"u1.png", "cat.png", "image/png", 2048⟩] ["id0"]
      "t" "http://h" [] (by decide) rfl⟩

end ImagesUploader
